import Mathlib

/-!
Verification of the request-shaping core of the SpotifyAITelegram-Bot
repository: the TTL/LRU cache (`OptimizedCache` in
`optimized_discord_bot.py`), the sliding-window rate limiter with burst
protection (`AdvancedRateLimiter`), the keyword-to-seed mapper
(`_extract_seeds`, `_get_audio_features_from_keywords`), the cache-key
derivation, the message-handling orchestrator
(`EnhancedMusicRecommendationBot.handle_message` in
`enhanced_music_bot.py`), and the fallback keyword extractor
(`OptimizedOpenRouterAPI._fallback_keyword_extraction`).

Each Lean definition is a direct shallow embedding of the corresponding
Python code. Timestamps (Python `time.time()` floats) are modelled as
integer clock ticks: the cache and rate-limiter code only subtracts and
compares timestamps, so any ordered abelian group of times is faithful,
and integers keep every definition kernel-computable. Python dicts are
modelled as association lists with dict update semantics (replace in
place, append if absent); `collections.deque` is modelled as a list with
its front at the head.
-/

namespace SpotifyBot

/-- Timestamps, modelling the clock `time.time()` (integer ticks). -/
abbrev Time := ℤ

/-! ### Association-list primitives modelling Python `dict` operations -/

/-- Model of `d[key]` lookup / `key in d`: first binding of `k`. -/
def lookupKey {α : Type} (k : String) : List (String × α) → Option α
  | [] => none
  | (k₁, v₁) :: rest => if k₁ = k then some v₁ else lookupKey k rest

/-- Model of `d[key] = v`: replace the binding in place, else append. -/
def insertKey {α : Type} (k : String) (v : α) : List (String × α) → List (String × α)
  | [] => [(k, v)]
  | (k₁, v₁) :: rest => if k₁ = k then (k, v) :: rest else (k₁, v₁) :: insertKey k v rest

/-- Model of `del d[key]` (guarded by `key in d` in the source, so absent
keys are a no-op here): drop the first binding of `k`. -/
def eraseKey {α : Type} (k : String) : List (String × α) → List (String × α)
  | [] => []
  | (k₁, v₁) :: rest => if k₁ = k then rest else (k₁, v₁) :: eraseKey k rest

/-! ### The TTL/LRU cache (`OptimizedCache`, optimized_discord_bot.py 75-162) -/

/-- The `CacheEntry` dataclass: `value`, `timestamp` (creation time),
`access_count`, `last_accessed`. -/
structure CacheEntry (α : Type) where
  value : α
  timestamp : Time
  access_count : ℕ
  last_accessed : Time
deriving DecidableEq

/-- The `OptimizedCache` state: `max_size`, `ttl`, the `cache` dict and the
`access_order` deque (front = head of the list). -/
structure OptimizedCache (α : Type) where
  max_size : ℕ
  ttl : Time
  cache : List (String × CacheEntry α)
  access_order : List String
deriving DecidableEq

namespace OptimizedCache

variable {α : Type}

/-- Model of `OptimizedCache._remove_entry`: delete the key from the dict (if
present) and remove its first occurrence from the access-order deque
(if present); `List.erase` is exactly that. -/
def removeEntry (s : OptimizedCache α) (key : String) : OptimizedCache α :=
  { s with cache := eraseKey key s.cache, access_order := s.access_order.erase key }

/-- Model of `OptimizedCache.get`: on a hit, expire the entry if
`now - entry.timestamp > ttl` (remove it, return `None`); otherwise bump
`access_count`, set `last_accessed := now`, move the key to the
most-recently-used end of `access_order`, and return the value.
Misses return `None` without touching the state. -/
def get (s : OptimizedCache α) (key : String) (now : Time) :
    Option α × OptimizedCache α :=
  match lookupKey key s.cache with
  | none => (none, s)
  | some entry =>
    if s.ttl < now - entry.timestamp then
      (none, s.removeEntry key)
    else
      let entry₁ : CacheEntry α :=
        { entry with access_count := entry.access_count + 1, last_accessed := now }
      (some entry.value,
        { s with
          cache := insertKey key entry₁ s.cache,
          access_order := (s.access_order.erase key) ++ [key] })

/-- Model of `OptimizedCache._evict_lru`: pop the head of the access-order deque
and delete that key from the dict if it is present. -/
def evictLru (s : OptimizedCache α) : OptimizedCache α :=
  match s.access_order with
  | [] => s
  | lru :: rest => { s with access_order := rest, cache := eraseKey lru s.cache }

/-- Model of `OptimizedCache.set`: if `len(cache) >= max_size`, evict first; then
insert/overwrite the entry with fresh metadata and append the key to the
most-recently-used end of `access_order`. -/
def set (s : OptimizedCache α) (key : String) (value : α) (now : Time) :
    OptimizedCache α :=
  let s₁ := if s.max_size ≤ s.cache.length then s.evictLru else s
  { s₁ with
    cache := insertKey key ⟨value, now, 1, now⟩ s₁.cache,
    access_order := s₁.access_order ++ [key] }

/-- Model of `OptimizedCache.clear`: empty both structures. -/
def clear (s : OptimizedCache α) : OptimizedCache α :=
  { s with cache := [], access_order := [] }

/-- An empty cache with the given capacity and ttl (the `__init__` state). -/
def empty (max_size : ℕ) (ttl : Time) : OptimizedCache α :=
  ⟨max_size, ttl, [], []⟩

end OptimizedCache

/-! ### The sliding-window rate limiter (`AdvancedRateLimiter`,
optimized_discord_bot.py 164-223), modelled per identity: `requests` is
the single identity's timestamp deque (front = oldest). -/

structure AdvancedRateLimiter where
  max_requests : ℕ
  window : Time
  burst_limit : ℕ
  requests : List Time
deriving DecidableEq

/-- The `while user_requests and now - user_requests[0] > window:
popleft()` loop: drop stale timestamps from the front. -/
def pruneOld (now window : Time) : List Time → List Time
  | [] => []
  | t :: ts => if window < now - t then pruneOld now window ts else t :: ts

namespace AdvancedRateLimiter

/-- Model of `AdvancedRateLimiter.is_allowed`: prune stale timestamps from the
front; reject without consuming a slot when the burst limit is reached
and the oldest retained timestamp is within the hardcoded 10-second
burst window; otherwise admit (append `now`) exactly when the retained
count is below `max_requests`. -/
def is_allowed (rl : AdvancedRateLimiter) (now : Time) :
    Bool × AdvancedRateLimiter :=
  let kept := pruneOld now rl.window rl.requests
  let burstViolation : Bool :=
    decide (rl.burst_limit ≤ kept.length) &&
      (match kept with
       | t₀ :: _ => decide (now - t₀ < 10)
       | [] => false)
  if burstViolation then
    (false, { rl with requests := kept })
  else if kept.length < rl.max_requests then
    (true, { rl with requests := kept ++ [now] })
  else
    (false, { rl with requests := kept })

end AdvancedRateLimiter

/-! ### Substring containment, modelling Python `needle in haystack` on
strings (contiguous substring). -/

/-- Here `containsSub n h` holds the truth of Python `n in h` for the
character lists of the two strings. -/
def containsSub (needle : List Char) : List Char → Bool
  | [] => needle.isEmpty
  | c :: rest => needle.isPrefixOf (c :: rest) || containsSub needle rest

/-- Python `word in text` on strings. -/
def strIn (word text : String) : Bool :=
  containsSub word.toList text.toList

/-- Python `s.lower()`, modelled character-wise (all words in the static
tables are ASCII). `String.toLower` itself is not used because its
`String.mapAux` recursion does not reduce in the kernel. -/
def lowerString (s : String) : String :=
  ⟨s.data.map Char.toLower⟩

/-! ### The seed mapper (`OptimizedSpotifyAPI._extract_seeds`,
optimized_discord_bot.py 387-411). -/

/-- The static `genre_mappings` dict, in source order. -/
def genre_mappings : List (String × String) :=
  [("rock", "rock"), ("pop", "pop"), ("jazz", "jazz"), ("classical", "classical"),
   ("electronic", "electronic"), ("hip-hop", "hip-hop"), ("rap", "hip-hop"),
   ("country", "country"), ("blues", "blues"), ("reggae", "reggae"),
   ("folk", "folk"), ("metal", "metal"), ("punk", "punk"), ("indie", "indie"),
   ("alternative", "alternative"), ("r&b", "r-n-b"), ("soul", "soul"),
   ("funk", "funk"), ("disco", "disco"), ("house", "house"), ("techno", "techno"),
   ("trance", "trance"), ("ambient", "ambient"), ("lofi", "lofi"),
   ("chill", "chill"), ("energetic", "dance"), ("party", "dance"),
   ("romantic", "romance"), ("sad", "sad"), ("happy", "happy"),
   ("calm", "calm"), ("relaxing", "relaxing")]

/-- The inner `for word, genre in genre_mappings.items()` scan: the first
entry whose word is a substring of the lower-cased keyword and whose
genre is not already collected is appended (`break`); a matching entry
whose genre is already collected does not stop the scan. -/
def scanMappings (kwLower : String) (acc : List String) :
    List (String × String) → Option String
  | [] => none
  | (word, genre) :: rest =>
    if strIn word kwLower = true ∧ genre ∉ acc then some genre
    else scanMappings kwLower acc rest

/-- One iteration of the outer `for keyword in keywords` loop of
`_extract_seeds`: append the scanned genre, if any. -/
def seedStep (acc : List String) (kw : String) : List String :=
  match scanMappings (lowerString kw) acc genre_mappings with
  | some genre => acc ++ [genre]
  | none => acc

/-- Model of `_extract_seeds` (the genre part; the artist and track seed lists are
the constants `[]` in the source): fold the scan over the keywords and
truncate to 5. -/
def extract_seeds (keywords : List String) : List String :=
  (keywords.foldl seedStep []).take 5

/-! ### Audio-feature derivation
(`OptimizedSpotifyAPI._get_audio_features_from_keywords`,
optimized_discord_bot.py 413-434). The emitted numeric constants are the
exact decimals from the source, modelled as rationals. -/

def high_energy_words : List String :=
  ["energetic", "upbeat", "fast", "dance", "party", "workout"]

def low_energy_words : List String :=
  ["calm", "relaxing", "chill", "sleep", "study"]

def high_valence_words : List String :=
  ["happy", "joyful", "cheerful", "upbeat"]

def low_valence_words : List String :=
  ["sad", "melancholy", "depressing"]

/-- Model of `any(word in keywords_lower for word in ws)`: list membership (exact
match) of some word of `ws` in the lower-cased keyword list. -/
def anyWordIn (ws : List String) (keywordsLower : List String) : Prop :=
  ∃ w ∈ ws, w ∈ keywordsLower

instance (ws keywordsLower : List String) :
    Decidable (anyWordIn ws keywordsLower) :=
  List.decidableBEx _ ws

/-- Model of `_get_audio_features_from_keywords`: the `features` dict, as the list
of key-value pairs inserted by the two if/elif chains (energy first,
then valence; the keys are pairwise distinct so dict insertion order is
faithfully a list append). -/
def get_audio_features_from_keywords (keywords : List String) :
    List (String × ℚ) :=
  let keywordsLower := keywords.map lowerString
  (if anyWordIn high_energy_words keywordsLower then
    [("target_energy", 8/10), ("min_energy", 6/10)]
   else if anyWordIn low_energy_words keywordsLower then
    [("target_energy", 3/10), ("max_energy", 5/10)]
   else []) ++
  (if anyWordIn high_valence_words keywordsLower then
    [("target_valence", 8/10), ("min_valence", 6/10)]
   else if anyWordIn low_valence_words keywordsLower then
    [("target_valence", 3/10), ("max_valence", 5/10)]
   else [])

/-! ### Cache-key derivation (`OptimizedSpotifyAPI.get_recommendations`,
optimized_discord_bot.py 313): `hashlib.md5(','.join(sorted(keywords))
.encode()).hexdigest()`. The MD5 digest is an arbitrary deterministic
function of its input string, so it is a parameter here; everything the
claims say about the key is about the sorted-join preimage. -/

/-- The string `','.join(sorted(keywords))`. -/
def sortedKeywordString (keywords : List String) : String :=
  String.intercalate "," (List.insertionSort (· ≤ ·) keywords)

/-- The recommendation cache key: a digest of the sorted-join string. -/
def cache_key (digest : String → String) (keywords : List String) : String :=
  digest (sortedKeywordString keywords)

/-! ### The orchestrator
(`EnhancedMusicRecommendationBot.handle_message`,
enhanced_music_bot.py 519-584). The two collaborator calls are modelled
by their results (`Except` for a call that may raise); the message
sends are presentation-only I/O. `user_stats` is the per-identity
total-requests counter `self.user_stats[user_id]`. -/

/-- The `Track` dataclass of enhanced_music_bot.py. -/
structure Track where
  title : String
  artist : String
  spotify_url : String
  album : String := ""
  popularity : ℕ := 0
  duration_ms : ℕ := 0
  preview_url : Option String := none
deriving DecidableEq

/-- The terminal outcomes of one `handle_message` call. -/
inductive Outcome where
  | rateLimited
  | noKeywords
  | noResults
  | success
  | failed
deriving DecidableEq

/-- Model of `handle_message` control flow: rate-limiter rejection returns before
any work; an exception from either collaborator is caught by the
`except` block (Failed); empty keywords and empty track lists return
their messages; only the success path executes
`self.user_stats[user_id] += 1`. Returns the outcome and the new value
of the per-identity counter. -/
def handle_message (allowed : Bool)
    (extraction : Except Unit (List String))
    (lookup : Except Unit (List Track))
    (user_stats : ℕ) : Outcome × ℕ :=
  if !allowed then (.rateLimited, user_stats)
  else
    match extraction with
    | .error _ => (.failed, user_stats)
    | .ok keywords =>
      if keywords.isEmpty then (.noKeywords, user_stats)
      else
        match lookup with
        | .error _ => (.failed, user_stats)
        | .ok tracks =>
          if tracks.isEmpty then (.noResults, user_stats)
          else (.success, user_stats + 1)

/-! ### The fallback keyword extractor
(`OptimizedOpenRouterAPI._fallback_keyword_extraction` and
`extract_music_keywords`, optimized_discord_bot.py 443-531). -/

def mood_keywords : List String :=
  ["happy", "sad", "energetic", "calm", "romantic", "melancholy"]

def fallback_genre_keywords : List String :=
  ["rock", "pop", "jazz", "classical", "electronic", "hip-hop", "country"]

def activity_keywords : List String :=
  ["workout", "study", "party", "sleep", "driving", "running"]

/-- Model of `_fallback_keyword_extraction`: append each word of the three static
lists that occurs as a substring of the lower-cased message, then
truncate to 5 (`keywords[:5]`). -/
def fallback_keyword_extraction (user_message : String) : List String :=
  let message_lower := lowerString user_message
  ((mood_keywords ++ fallback_genre_keywords ++ activity_keywords).foldl
    (fun acc kw => if strIn kw message_lower then acc ++ [kw] else acc)
    []).take 5

/-- Model of `extract_music_keywords`: return the cached keyword list when the
cache hits; otherwise the external call either yields a parsed keyword
list or raises, and any exception is caught and answered by the local
fallback (`except ... return self._fallback_keyword_extraction(...)`). -/
def extract_music_keywords (user_message : String)
    (cached : Option (List String))
    (api : Except Unit (List String)) : List String :=
  match cached with
  | some keywords => keywords
  | none =>
    match api with
    | .ok keywords => keywords
    | .error _ => fallback_keyword_extraction user_message

/-! ### Helper lemmas about the dict model -/

theorem lookupKey_insertKey_self {α : Type} (k : String) (v : α) (l : List (String × α)) :
    lookupKey k (insertKey k v l) = some v := by
  induction l with
  | nil => simp [insertKey, lookupKey]
  | cons p rest ih =>
    obtain ⟨k₁, v₁⟩ := p
    by_cases h : k₁ = k <;> simp [insertKey, lookupKey, h, ih]

theorem lookupKey_insertKey_ne {α : Type} {k k₁ : String} (h : k₁ ≠ k) (v : α)
    (l : List (String × α)) :
    lookupKey k₁ (insertKey k v l) = lookupKey k₁ l := by
  have h₁ : ¬(k = k₁) := fun hc => h hc.symm
  induction l with
  | nil => simp [insertKey, lookupKey, h₁]
  | cons p rest ih =>
    obtain ⟨k₂, v₂⟩ := p
    by_cases h₂ : k₂ = k
    · subst h₂
      simp [insertKey, lookupKey, h₁]
    · simp [insertKey, lookupKey, h₂, ih]

theorem lookupKey_eraseKey_ne {α : Type} {k k₁ : String} (h : k₁ ≠ k)
    (l : List (String × α)) :
    lookupKey k₁ (eraseKey k l) = lookupKey k₁ l := by
  have h₁ : ¬(k = k₁) := fun hc => h hc.symm
  induction l with
  | nil => simp [eraseKey]
  | cons p rest ih =>
    obtain ⟨k₂, v₂⟩ := p
    by_cases h₂ : k₂ = k
    · subst h₂
      simp [eraseKey, lookupKey, h₁]
    · simp [eraseKey, lookupKey, h₂, ih]

theorem lookupKey_eq_none_of_not_mem {α : Type} {k : String} {l : List (String × α)}
    (h : k ∉ l.map Prod.fst) : lookupKey k l = none := by
  induction l with
  | nil => rfl
  | cons p rest ih =>
    obtain ⟨k₁, v₁⟩ := p
    simp only [List.map_cons, List.mem_cons, not_or] at h
    simp [lookupKey, Ne.symm h.1, ih h.2]

theorem lookupKey_eraseKey_self {α : Type} {k : String} {l : List (String × α)}
    (h : (l.map Prod.fst).Nodup) : lookupKey k (eraseKey k l) = none := by
  induction l with
  | nil => rfl
  | cons p rest ih =>
    obtain ⟨k₁, v₁⟩ := p
    simp only [List.map_cons, List.nodup_cons] at h
    by_cases h₂ : k₁ = k
    · subst h₂
      simpa [eraseKey] using lookupKey_eq_none_of_not_mem h.1
    · simp [eraseKey, lookupKey, h₂, ih h.2]

/-! ### Claim theorems -/

/-- Claim C1 (amended): on `set`, an entry can be evicted exactly when the
number of entries is at least the capacity at the start of the call,
even when the key being set is already present; below capacity every
present key survives a `set`; at or above capacity every present key
other than the head of the access-order sequence survives (only the
head can be evicted, and the head need not be the least-recently-used
key); and on a capacity-2 cache the sequence set(A), set(B), get(A),
set(C) evicts B and leaves A and C present. -/
theorem claim_C1_amended :
    (∀ (α : Type) (s : OptimizedCache α) (key : String) (value : α) (now : Time)
        (k₁ : String),
      s.cache.length < s.max_size →
      (lookupKey k₁ s.cache).isSome = true →
      (lookupKey k₁ (s.set key value now).cache).isSome = true) ∧
    (∀ (α : Type) (s : OptimizedCache α) (key : String) (value : α) (now : Time)
        (k₁ : String),
      s.max_size ≤ s.cache.length →
      (lookupKey k₁ s.cache).isSome = true →
      some k₁ ≠ s.access_order.head? →
      (lookupKey k₁ (s.set key value now).cache).isSome = true) ∧
    (let s₄ := ((((OptimizedCache.empty 2 100 : OptimizedCache ℕ).set "A" 10 0).set
        "B" 20 1).get "A" 2).2.set "C" 30 3
     lookupKey "B" s₄.cache = none ∧
       (lookupKey "A" s₄.cache).isSome = true ∧
       (lookupKey "C" s₄.cache).isSome = true) := by
  refine ⟨?_, ?_, by decide⟩
  · intro α s key value now k₁ hlt hk
    unfold OptimizedCache.set
    rw [if_neg (not_le.mpr hlt)]
    by_cases h : k₁ = key
    · subst h
      simp [lookupKey_insertKey_self]
    · simpa [lookupKey_insertKey_ne h] using hk
  · intro α s key value now k₁ hge hk hhead
    unfold OptimizedCache.set
    rw [if_pos hge]
    unfold OptimizedCache.evictLru
    by_cases h : k₁ = key
    · subst h
      cases s.access_order <;> simp [lookupKey_insertKey_self]
    · cases haccess : s.access_order with
      | nil => simpa [haccess, lookupKey_insertKey_ne h] using hk
      | cons lru rest =>
        rw [haccess] at hhead
        have hne : k₁ ≠ lru := by
          intro hcon
          exact hhead (by simp [hcon])
        simpa [haccess, lookupKey_insertKey_ne h, lookupKey_eraseKey_ne hne] using hk

/-- Claim C1 witness: `claim_C1_amended` applied to concrete capacity-2
caches: below capacity a present key survives a `set`; at capacity a
present key that is not the access-order head survives a `set`. -/
theorem claim_C1_witness :
    (lookupKey "A"
        ((⟨2, 100, [("A", ⟨10, 0, 1, 0⟩)], ["A"]⟩ : OptimizedCache ℕ).set
          "B" 20 1).cache).isSome = true ∧
      (lookupKey "B"
        ((⟨2, 100, [("A", ⟨10, 0, 1, 0⟩), ("B", ⟨20, 1, 1, 1⟩)],
            ["A", "B"]⟩ : OptimizedCache ℕ).set "C" 30 2).cache).isSome = true :=
  ⟨claim_C1_amended.1 ℕ ⟨2, 100, [("A", ⟨10, 0, 1, 0⟩)], ["A"]⟩ "B" 20 1 "A"
      (by decide) (by decide),
    claim_C1_amended.2.1 ℕ
      ⟨2, 100, [("A", ⟨10, 0, 1, 0⟩), ("B", ⟨20, 1, 1, 1⟩)], ["A", "B"]⟩
      "C" 30 2 "B" (by decide) (by decide) (by decide)⟩

/-- Claim C1 counterexample: the claim as stated is false on the code.
First, with a full capacity-2 cache holding A and B, `set("B", ...)`
evicts A even though the key B is already present (the source evicts
whenever `len(cache) >= max_size`, without checking whether the key is
new). Second, after set(A), set(A), set(B), get(A) on a capacity-2
cache, A is the most recently accessed entry (last accessed at 3,
versus 2 for B), yet `set("C", ...)` evicts A, not the
least-recently-used B: the access-order deque holds a stale duplicate
of A at its head because `set` appends without removing prior
occurrences. -/
theorem claim_C1_counterexample :
    (let t₂ := ((OptimizedCache.empty 2 100 : OptimizedCache ℕ).set "A" 10 0).set
        "B" 20 1
     (lookupKey "B" t₂.cache).isSome = true ∧
       lookupKey "A" (t₂.set "B" 21 2).cache = none) ∧
    (let u₂ := ((((OptimizedCache.empty 2 100 : OptimizedCache ℕ).set "A" 10 0).set
        "A" 11 1).set "B" 20 2).get "A" 3
     (lookupKey "A" u₂.2.cache).map (fun e => e.last_accessed) = some 3 ∧
       (lookupKey "B" u₂.2.cache).map (fun e => e.last_accessed) = some 2 ∧
       lookupKey "A" (u₂.2.set "C" 30 4).cache = none ∧
       (lookupKey "B" (u₂.2.set "C" 30 4).cache).isSome = true) := by
  constructor <;> decide

/-- Claim C2: the claim (`size ≤ capacity` after every operation) is the
documented intent (`max_size`), but the code violates it: on a
capacity-2 cache the pure-`set` sequence set(A), set(A), set(B),
set(C), set(D) leaves 3 entries. The overwriting second set(A) appends
a duplicate "A" to the access-order deque; evicting for set(C) pops
one "A" and deletes the entry, leaving a stale "A" at the head, so the
eviction for set(D) pops the stale "A" and removes nothing. -/
theorem claim_C2_code_bug :
    (let v := ((((OptimizedCache.empty 2 100 : OptimizedCache ℕ).set "A" 1 0).set
        "A" 2 1).set "B" 3 2).set "C" 4 3 |>.set "D" 5 4
     v.max_size = 2 ∧ v.cache.length = 3) := by
  decide

/-- Claim C3: `get` on a present, unexpired key (`now - createdAt ≤ ttl`)
returns the stored value, increments `access_count`, sets
`last_accessed := now`, moves the key to the most-recently-used end of
the access order, and leaves every other key's entry untouched; `get` on
a present key with `now - createdAt > ttl` removes the entry and returns
absent (stated under the dict invariant that keys are unique); `get` on
an absent key returns absent with no side effects. -/
theorem claim_C3 :
    (∀ (α : Type) (s : OptimizedCache α) (key : String) (now : Time)
        (entry : CacheEntry α),
      lookupKey key s.cache = some entry →
      now - entry.timestamp ≤ s.ttl →
      (s.get key now).1 = some entry.value ∧
        lookupKey key (s.get key now).2.cache =
          some { entry with
                  access_count := entry.access_count + 1, last_accessed := now } ∧
        (s.get key now).2.access_order.getLast? = some key ∧
        (∀ k₁, k₁ ≠ key →
          lookupKey k₁ (s.get key now).2.cache = lookupKey k₁ s.cache)) ∧
    (∀ (α : Type) (s : OptimizedCache α) (key : String) (now : Time)
        (entry : CacheEntry α),
      (s.cache.map Prod.fst).Nodup →
      lookupKey key s.cache = some entry →
      s.ttl < now - entry.timestamp →
      (s.get key now).1 = none ∧ lookupKey key (s.get key now).2.cache = none) ∧
    (∀ (α : Type) (s : OptimizedCache α) (key : String) (now : Time),
      lookupKey key s.cache = none → s.get key now = (none, s)) := by
  refine ⟨?_, ?_, ?_⟩
  · intro α s key now entry hlk hfresh
    unfold OptimizedCache.get
    rw [hlk]
    dsimp only
    rw [if_neg (not_lt.mpr hfresh)]
    refine ⟨rfl, ?_, ?_, ?_⟩
    · simpa using lookupKey_insertKey_self key _ s.cache
    · simp
    · intro k₁ hne
      simpa using lookupKey_insertKey_ne hne _ s.cache
  · intro α s key now entry hnd hlk hexp
    unfold OptimizedCache.get
    rw [hlk]
    dsimp only
    rw [if_pos hexp]
    exact ⟨rfl, by simpa [OptimizedCache.removeEntry] using lookupKey_eraseKey_self hnd⟩
  · intro α s key now hlk
    unfold OptimizedCache.get
    rw [hlk]

/-- Claim C3 witness: the three cases of `claim_C3` evaluated on a
concrete one-entry cache (hit at time 2, expiry at time 101, miss on an
absent key). -/
theorem claim_C3_witness :
    (let s : OptimizedCache ℕ := ⟨2, 100, [("A", ⟨10, 0, 1, 0⟩)], ["A"]⟩
     (s.get "A" 2).1 = some 10 ∧
       lookupKey "A" (s.get "A" 2).2.cache = some ⟨10, 0, 2, 2⟩ ∧
       (s.get "A" 2).2.access_order.getLast? = some "A" ∧
       lookupKey "B" (s.get "A" 2).2.cache = lookupKey "B" s.cache) ∧
    (let s : OptimizedCache ℕ := ⟨2, 100, [("A", ⟨10, 0, 1, 0⟩)], ["A"]⟩
     (s.get "A" 101).1 = none ∧ lookupKey "A" (s.get "A" 101).2.cache = none) ∧
    (let s : OptimizedCache ℕ := ⟨2, 100, [("A", ⟨10, 0, 1, 0⟩)], ["A"]⟩
     s.get "B" 2 = (none, s)) := by
  refine ⟨?_, ?_, ?_⟩
  · have h := claim_C3.1 ℕ ⟨2, 100, [("A", ⟨10, 0, 1, 0⟩)], ["A"]⟩ "A" 2
      ⟨10, 0, 1, 0⟩ rfl (by decide)
    exact ⟨h.1, h.2.1, h.2.2.1, h.2.2.2 "B" (by decide)⟩
  · exact claim_C3.2.1 ℕ ⟨2, 100, [("A", ⟨10, 0, 1, 0⟩)], ["A"]⟩ "A" 101
      ⟨10, 0, 1, 0⟩ (by decide) rfl (by decide)
  · exact claim_C3.2.2 ℕ ⟨2, 100, [("A", ⟨10, 0, 1, 0⟩)], ["A"]⟩ "B" 2 rfl

theorem pruneOld_eq_filter {now w : Time} {l : List Time}
    (h : l.Sorted (· ≤ ·)) :
    pruneOld now w l = l.filter (fun t => decide (now - t ≤ w)) := by
  induction l with
  | nil => rfl
  | cons t ts ih =>
    rw [List.sorted_cons] at h
    by_cases hc : w < now - t
    · have hd : (decide (now - t ≤ w)) = false := decide_eq_false (not_le.mpr hc)
      rw [pruneOld, if_pos hc, ih h.2, List.filter_cons, hd]
      simp
    · rw [pruneOld, if_neg hc]
      symm
      rw [List.filter_eq_self]
      intro b hb
      rcases List.mem_cons.mp hb with rfl | hbts
      · exact decide_eq_true (not_lt.mp hc)
      · exact decide_eq_true
          (le_trans (sub_le_sub_left (h.1 b hbts) now) (not_lt.mp hc))

/-- Claim C4: `is_allowed` first drops timestamps older than
`now - window` (on a time-sorted deque the front prune equals a full
filter), then admits — appending `now` and returning true — exactly when
the retained count is below `max_requests` and no burst violation
applies, and otherwise returns false leaving the pruned deque unchanged;
concretely, with `max_requests = 3` and `window = 60`, three calls
within the window are admitted, a fourth in the same window is rejected,
and a fifth after the window has elapsed is admitted again. -/
theorem claim_C4 :
    (∀ (rl : AdvancedRateLimiter) (now : Time) (kept : List Time),
      rl.requests.Sorted (· ≤ ·) →
      kept = rl.requests.filter (fun t => decide (now - t ≤ rl.window)) →
      (((rl.is_allowed now).1 = true ↔
          kept.length < rl.max_requests ∧
            ¬(rl.burst_limit ≤ kept.length ∧
              ∃ t₀, kept.head? = some t₀ ∧ now - t₀ < 10)) ∧
        (rl.is_allowed now).2.requests =
          (if (rl.is_allowed now).1 = true then kept ++ [now] else kept))) ∧
    (let r₁ := (⟨3, 60, 5, []⟩ : AdvancedRateLimiter).is_allowed 0
     let r₂ := r₁.2.is_allowed 1
     let r₃ := r₂.2.is_allowed 2
     let r₄ := r₃.2.is_allowed 3
     let r₅ := r₄.2.is_allowed 63
     r₁.1 = true ∧ r₂.1 = true ∧ r₃.1 = true ∧ r₄.1 = false ∧ r₅.1 = true) := by
  constructor
  · intro rl now kept hs hk
    unfold AdvancedRateLimiter.is_allowed
    rw [pruneOld_eq_filter hs, ← hk]
    cases kept with
    | nil =>
      by_cases hm : 0 < rl.max_requests <;> simp [hm]
    | cons t ts =>
      by_cases hb : rl.burst_limit ≤ ts.length + 1
      · by_cases hw : now - t < 10
        · have hb₁ : ¬(ts.length + 1 < rl.burst_limit) := not_lt.mpr hb
          simp [hb, hb₁, hw]
        · by_cases hm : ts.length + 1 < rl.max_requests <;>
            simp [hb, hw, hm, not_lt.mp hw]
      · by_cases hm : ts.length + 1 < rl.max_requests <;>
          simp [hb, hm, not_le.mp hb]
  · decide

/-- Claim C4 witness: `claim_C4` applied to a limiter with
`max_requests` 3, `window` 60, `burst_limit` 5 and two admitted
timestamps, at time 2. -/
theorem claim_C4_witness :
    (let rl : AdvancedRateLimiter := ⟨3, 60, 5, [0, 1]⟩
     let kept : List Time := [0, 1]
     ((rl.is_allowed 2).1 = true ↔
        kept.length < rl.max_requests ∧
          ¬(rl.burst_limit ≤ kept.length ∧
            ∃ t₀, kept.head? = some t₀ ∧ (2 : Time) - t₀ < 10)) ∧
      (rl.is_allowed 2).2.requests =
        (if (rl.is_allowed 2).1 = true then kept ++ [(2 : Time)] else kept)) :=
  claim_C4.1 ⟨3, 60, 5, [0, 1]⟩ 2 [0, 1] (by simp) (by decide)

/-- Claim C5: when, after pruning, the retained count is at least
`burst_limit` and the oldest retained timestamp is within the 10-second
burst window of `now`, `is_allowed` returns false without appending a
timestamp (the deque stays the pruned sequence); concretely with
`burst_limit = 2`, `max_requests = 15`, `window = 60`, two admitted
requests at times 0 and 1 followed by a third at time 2 leave the third
rejected with the deque still `[0, 1]`. -/
theorem claim_C5 :
    (∀ (rl : AdvancedRateLimiter) (now t₀ : Time) (rest : List Time),
      pruneOld now rl.window rl.requests = t₀ :: rest →
      rl.burst_limit ≤ (t₀ :: rest).length →
      now - t₀ < 10 →
      (rl.is_allowed now).1 = false ∧
        (rl.is_allowed now).2.requests = t₀ :: rest) ∧
    (let b₁ := (⟨15, 60, 2, []⟩ : AdvancedRateLimiter).is_allowed 0
     let b₂ := b₁.2.is_allowed 1
     let b₃ := b₂.2.is_allowed 2
     b₁.1 = true ∧ b₂.1 = true ∧ b₃.1 = false ∧ b₃.2.requests = [0, 1]) := by
  constructor
  · intro rl now t₀ rest hp hb hw
    unfold AdvancedRateLimiter.is_allowed
    rw [hp]
    rw [List.length_cons] at hb
    simp [hb, hw]
  · decide

/-- Claim C5 witness: `claim_C5` applied to a limiter with
`max_requests` 15, `window` 60, `burst_limit` 2 and two admitted
timestamps, at time 2. -/
theorem claim_C5_witness :
    (let rl : AdvancedRateLimiter := ⟨15, 60, 2, [0, 1]⟩
     (rl.is_allowed 2).1 = false ∧
       (rl.is_allowed 2).2.requests = (0 : Time) :: [1]) :=
  claim_C5.1 ⟨15, 60, 2, [0, 1]⟩ 2 0 [1] rfl (by decide) (by decide)

/-- Claim C6: the recommendation cache key is a digest of the
lexicographically sorted keywords joined with the fixed delimiter `,`,
so any two keyword lists that are permutations of each other produce
the identical key, for every (deterministic) digest function. -/
theorem claim_C6 :
    ∀ (digest : String → String) (l₁ l₂ : List String),
      l₁.Perm l₂ → cache_key digest l₁ = cache_key digest l₂ := by
  intro digest l₁ l₂ h
  unfold cache_key sortedKeywordString
  congr 1
  congr 1
  exact List.eq_of_perm_of_sorted
    (((List.perm_insertionSort _ l₁).trans h).trans
      (List.perm_insertionSort _ l₂).symm)
    (List.sorted_insertionSort _ l₁) (List.sorted_insertionSort _ l₂)

/-- Claim C6 witness: `claim_C6` applied to the reordered keyword lists
from the spec example (with the identity digest). -/
theorem claim_C6_witness :
    cache_key id ["rock", "energetic"] = cache_key id ["energetic", "rock"] :=
  claim_C6 id ["rock", "energetic"] ["energetic", "rock"] (by decide)

theorem scanMappings_not_mem {kw : String} {acc : List String} {g : String}
    {ms : List (String × String)} (h : scanMappings kw acc ms = some g) :
    g ∉ acc := by
  induction ms with
  | nil => simp [scanMappings] at h
  | cons p rest ih =>
    obtain ⟨w, genre⟩ := p
    rw [scanMappings] at h
    by_cases hc : strIn w kw = true ∧ genre ∉ acc
    · rw [if_pos hc] at h
      cases h
      exact hc.2
    · rw [if_neg hc] at h
      exact ih h

theorem seedStep_nodup {acc : List String} (kw : String) (h : acc.Nodup) :
    (seedStep acc kw).Nodup := by
  unfold seedStep
  cases hs : scanMappings (lowerString kw) acc genre_mappings with
  | none => exact h
  | some g =>
    have hg : g ∉ acc := scanMappings_not_mem hs
    simp [List.nodup_append, h, hg]

theorem foldl_seedStep_nodup :
    ∀ (kws acc : List String), acc.Nodup → (kws.foldl seedStep acc).Nodup := by
  intro kws
  induction kws with
  | nil => intro acc h; exact h
  | cons kw rest ih => intro acc h; exact ih _ (seedStep_nodup kw h)

/-- Claim C7: for every keyword list the derived seed-genre list has no
duplicates and at most 5 elements (the scan appends, per keyword, the
first genre-table entry whose word is contained in the keyword and
whose genre is not already collected, preserving first-seen order), and
the input `["energetic", "rock", "workout"]` yields a genre list
containing `"rock"` and `"dance"`. -/
theorem claim_C7 :
    (∀ keywords : List String,
      (extract_seeds keywords).Nodup ∧ (extract_seeds keywords).length ≤ 5) ∧
    extract_seeds ["energetic", "rock", "workout"] = ["dance", "rock"] ∧
    "rock" ∈ extract_seeds ["energetic", "rock", "workout"] ∧
    "dance" ∈ extract_seeds ["energetic", "rock", "workout"] := by
  refine ⟨?_, by decide, by decide, by decide⟩
  intro kws
  constructor
  · exact List.Nodup.sublist (List.take_sublist 5 _)
      (foldl_seedStep_nodup kws [] List.nodup_nil)
  · unfold extract_seeds
    rw [List.length_take]
    exact min_le_left _ _

/-- Claim C8: whenever the keyword list matches both the high-energy and
the low-energy word sets, the audio-feature derivation emits exactly the
high-energy pair (`target_energy` 0.8, `min_energy` 0.6) and no other
energy binding: the `if`/`elif` chain makes the first (high-energy)
match win deterministically. -/
theorem claim_C8 :
    ∀ keywords : List String,
      anyWordIn high_energy_words (keywords.map lowerString) →
      anyWordIn low_energy_words (keywords.map lowerString) →
      (get_audio_features_from_keywords keywords).filter
          (fun p =>
            decide (p.1 = "target_energy" ∨ p.1 = "min_energy" ∨
              p.1 = "max_energy")) =
        [("target_energy", 8/10), ("min_energy", 6/10)] := by
  intro kws h₁ h₂
  simp only [get_audio_features_from_keywords]
  rw [if_pos h₁, List.filter_append]
  split_ifs <;> rfl

/-- Claim C8 witness: `claim_C8` applied to the keyword list
`["energetic", "calm"]`, which matches both energy word sets. -/
theorem claim_C8_witness :
    (get_audio_features_from_keywords ["energetic", "calm"]).filter
        (fun p =>
          decide (p.1 = "target_energy" ∨ p.1 = "min_energy" ∨
            p.1 = "max_energy")) =
      [("target_energy", 8/10), ("min_energy", 6/10)] :=
  claim_C8 ["energetic", "calm"] (by decide) (by decide)

/-- Claim C9: one `handle_message` call increments the per-identity
total-requests counter exactly when its outcome is `Success` (a
non-empty track list obtained), and leaves it unchanged on
`RateLimited`, `NoKeywords`, `NoResults` and `Failed`. -/
theorem claim_C9 :
    ∀ (allowed : Bool) (extraction : Except Unit (List String))
      (lookup : Except Unit (List Track)) (user_stats : ℕ),
      (handle_message allowed extraction lookup user_stats).2 =
        (if (handle_message allowed extraction lookup user_stats).1 =
            Outcome.success
         then user_stats + 1 else user_stats) := by
  intro a e l s
  unfold handle_message
  cases a with
  | false => rfl
  | true =>
    cases e with
    | error u => rfl
    | ok kws =>
      cases hkE : kws.isEmpty with
      | true => simp [hkE]
      | false =>
        cases l with
        | error u => simp [hkE]
        | ok tracks =>
          cases htE : tracks.isEmpty <;> simp [hkE, htE]

theorem foldl_append_filter (p : String → Bool) :
    ∀ (l acc : List String),
      l.foldl (fun acc kw => if p kw then acc ++ [kw] else acc) acc =
        acc ++ l.filter p := by
  intro l
  induction l with
  | nil => intro acc; simp
  | cons a rest ih =>
    intro acc
    by_cases hp : p a = true <;>
      simp [List.filter_cons, hp, ih, List.append_assoc]

/-- Claim C10 counterexample: the claim says the fallback list contains
exactly the static-list words occurring as substrings of the lower-cased
message; but for the message
`"happy sad energetic calm romantic melancholy"` the word
`"melancholy"` is in the static mood list and occurs in the message, yet
the fallback (returned by `extract_music_keywords` on an extraction
failure) truncates to the first 5 matches and omits it. -/
theorem claim_C10_counterexample :
    "melancholy" ∈ mood_keywords ++ fallback_genre_keywords ++ activity_keywords ∧
      strIn "melancholy"
          (lowerString "happy sad energetic calm romantic melancholy") = true ∧
      "melancholy" ∉
        fallback_keyword_extraction "happy sad energetic calm romantic melancholy" ∧
      extract_music_keywords "happy sad energetic calm romantic melancholy" none
          (Except.error ()) =
        fallback_keyword_extraction "happy sad energetic calm romantic melancholy" :=
  ⟨by decide, by decide, by decide, rfl⟩

/-- Claim C10 (amended): on any failure of the external extraction call,
`extract_music_keywords` returns the local fallback list, which is
deterministic, has at most 5 elements, and consists of the first at
most 5 words of the fixed static mood/genre/activity lists (in the
lists' fixed scan order) that occur as substrings of the lower-cased
message. -/
theorem claim_C10_amended :
    ∀ (user_message : String) (e : Unit),
      extract_music_keywords user_message none (Except.error e) =
          fallback_keyword_extraction user_message ∧
        fallback_keyword_extraction user_message =
          ((mood_keywords ++ fallback_genre_keywords ++ activity_keywords).filter
              (fun kw => strIn kw (lowerString user_message))).take 5 ∧
        (fallback_keyword_extraction user_message).length ≤ 5 := by
  intro msg e
  have hEq : fallback_keyword_extraction msg =
      ((mood_keywords ++ fallback_genre_keywords ++ activity_keywords).filter
          (fun kw => strIn kw (lowerString msg))).take 5 := by
    simp only [fallback_keyword_extraction]
    rw [foldl_append_filter (fun kw => strIn kw (lowerString msg))]
    simp
  refine ⟨rfl, hEq, ?_⟩
  rw [hEq, List.length_take]
  exact min_le_left _ _

end SpotifyBot
